import Mathlib

/-!
Verification development for the evocore Python binding layer
(src/python/evocore).  The binding is a cffi wrapper around a C library;
the Python code under src/ is embedded directly, and each C entry point
that is not part of the repository sources is modelled from the
specification (its doc comment starts with "Modelled from the spec:").
Floating-point doubles are modelled as exact rationals.
-/

namespace Evocore

/-- Python exceptions that the embedded binding code can raise. -/
inductive PyErr where
  | valueError
  | attributeError
  | evocoreError
  deriving DecidableEq, Repr

/-- Modelled from numpy (an external library, not repository code):
np.random.uniform(0, 1, n) draws n values in the half-open interval [0,1)
from the GLOBAL generator state and advances that state.  The concrete
mixing arithmetic here is a stand-in; the only properties relied on are
that the output has length n, that every entry lies in [0,1), that the
output depends on the ambient global state, and that no caller-supplied
seed is consulted. -/
def npUniform01 (g : Nat) (n : Nat) : List ℚ × Nat :=
  ((List.range n).map (fun i => (((g + i) % 1000 : Nat) : ℚ) / 1000), g + n)

theorem npUniform01_length (g n : Nat) : (npUniform01 g n).1.length = n := by
  simp [npUniform01]

theorem npUniform01_mem_Ico (g n : Nat) :
    ∀ x ∈ (npUniform01 g n).1, 0 ≤ x ∧ x < 1 := by
  intro x hx
  simp only [npUniform01, List.mem_map, List.mem_range] at hx
  obtain ⟨i, _, rfl⟩ := hx
  constructor
  · positivity
  · rw [div_lt_one (by norm_num)]
    exact_mod_cast Nat.mod_lt _ (by norm_num)

/-! ## WeightedStats (src/python/evocore/learning/weighted.py)

The Python class delegates every operation to the C library
(evocore_weighted_init / update / merge / ...), which is not under src/;
those routines are modelled from the spec, section 4.2. -/

structure WeightedStats where
  count : Nat
  sum_weights : ℚ
  mean : ℚ
  m2 : ℚ
  min_value : ℚ
  max_value : ℚ
  deriving DecidableEq, Repr

/-- Modelled from the spec: evocore_weighted_init starts an empty
accumulator (count 0, weights/mean/second moment 0). -/
def WeightedStats.init : WeightedStats :=
  { count := 0, sum_weights := 0, mean := 0, m2 := 0, min_value := 0, max_value := 0 }

/-- Modelled from the spec: evocore_weighted_update (the C routine behind
WeightedStats.update).  Fails, returning false with the accumulator
unchanged, if weight < 0; otherwise performs the numerically stable
weighted Welford update of count, sum of weights, mean and the weighted
second-moment accumulator, and tracks the running min/max. -/
def WeightedStats.update (s : WeightedStats) (value weight : ℚ) : Bool × WeightedStats :=
  if weight < 0 then (false, s)
  else
    let w := s.sum_weights + weight
    let delta := value - s.mean
    let mean2 := s.mean + (weight / w) * delta
    (true,
      { count := s.count + 1
        sum_weights := w
        mean := mean2
        m2 := s.m2 + weight * delta * (value - mean2)
        min_value := if s.count = 0 then value else min s.min_value value
        max_value := if s.count = 0 then value else max s.max_value value })

/-- Modelled from the spec: variance is 0 when count < 2, otherwise the
weighted second moment divided by the sum of weights. -/
def WeightedStats.variance (s : WeightedStats) : ℚ :=
  if s.count < 2 then 0 else s.m2 / s.sum_weights

/-- Modelled from the spec: evocore_weighted_merge combines two
accumulators algebraically (parallel Welford merge) from their fields
alone; raw samples are not retained, so none are replayed. -/
def WeightedStats.merge (a b : WeightedStats) : WeightedStats :=
  let w := a.sum_weights + b.sum_weights
  let delta := b.mean - a.mean
  { count := a.count + b.count
    sum_weights := w
    mean := a.mean + delta * (b.sum_weights / w)
    m2 := a.m2 + b.m2 + delta * delta * (a.sum_weights * b.sum_weights / w)
    min_value := min a.min_value b.min_value
    max_value := max a.max_value b.max_value }

/-- Accumulator built by feeding a sequence of (value, weight) updates to
a fresh WeightedStats. -/
def buildAcc (updates : List (ℚ × ℚ)) : WeightedStats :=
  updates.foldl (fun s u => (s.update u.1 u.2).2) WeightedStats.init

/-- Total weight of a sequence of (value, weight) updates. -/
def wtot (updates : List (ℚ × ℚ)) : ℚ := (updates.map Prod.snd).sum

/-- Weight-scaled sum of values of a sequence of (value, weight) updates. -/
def wsum (updates : List (ℚ × ℚ)) : ℚ := (updates.map (fun u => u.1 * u.2)).sum

/-- Representation invariant tying an accumulator to the first moments of
the update sequence it was built from. -/
def ReprMoments (s : WeightedStats) (sw sv : ℚ) : Prop :=
  s.sum_weights = sw ∧ s.mean * sw = sv ∧ 0 ≤ sw ∧ (sw = 0 → s.mean = 0)

theorem update_moments {s : WeightedStats} {sw sv : ℚ} (hs : ReprMoments s sw sv)
    {v w : ℚ} (hw : 0 ≤ w) : ReprMoments (s.update v w).2 (sw + w) (sv + v * w) := by
  obtain ⟨h1, h2, h3, h4⟩ := hs
  have hnot : ¬ w < 0 := not_lt.mpr hw
  refine ⟨?_, ?_, by positivity, ?_⟩
  · simp [WeightedStats.update, hnot, h1]
  · simp only [WeightedStats.update, hnot, if_false]
    rcases eq_or_lt_of_le (by positivity : (0 : ℚ) ≤ sw + w) with hz | hp
    · have hsw : sw = 0 := by linarith [le_antisymm (by linarith) h3]
      have hww : w = 0 := by linarith
      have hm := h4 hsw
      simp [h1, hsw, hww, hm, ← h2]
    · have hne : sw + w ≠ 0 := ne_of_gt hp
      field_simp [h1]
      ring_nf
      nlinarith [h2]
  · intro hz
    have hsw : sw = 0 := by linarith [le_antisymm (by linarith) h3]
    have hww : w = 0 := by linarith
    have hm := h4 hsw
    simp [WeightedStats.update, hnot, h1, hsw, hww, hm]

theorem foldl_moments (l : List (ℚ × ℚ)) :
    ∀ (s : WeightedStats) (sw sv : ℚ), ReprMoments s sw sv →
      (∀ u ∈ l, 0 ≤ u.2) →
      ReprMoments (l.foldl (fun s u => (s.update u.1 u.2).2) s) (sw + wtot l) (sv + wsum l) := by
  induction l with
  | nil => intro s sw sv hs _; simpa [wtot, wsum] using hs
  | cons u rest ih =>
      intro s sw sv hs hw
      have h1 := update_moments (v := u.1) hs (hw u (List.mem_cons_self u rest))
      have h2 := ih _ _ _ h1 (fun x hx => hw x (List.mem_cons_of_mem u hx))
      simpa [wtot, wsum, List.foldl_cons, add_assoc] using h2

theorem buildAcc_moments (l : List (ℚ × ℚ)) (hw : ∀ u ∈ l, 0 ≤ u.2) :
    ReprMoments (buildAcc l) (wtot l) (wsum l) := by
  have h0 : ReprMoments WeightedStats.init 0 0 := by
    refine ⟨rfl, by simp [WeightedStats.init], le_refl 0, fun _ => rfl⟩
  simpa using foldl_moments l WeightedStats.init 0 0 h0 hw

theorem merge_moments {a b : WeightedStats} {swa sva swb svb : ℚ}
    (ha : ReprMoments a swa sva) (hb : ReprMoments b swb svb) :
    ReprMoments (a.merge b) (swa + swb) (sva + svb) := by
  obtain ⟨a1, a2, a3, a4⟩ := ha
  obtain ⟨b1, b2, b3, b4⟩ := hb
  refine ⟨?_, ?_, by positivity, ?_⟩
  · simp [WeightedStats.merge, a1, b1]
  · simp only [WeightedStats.merge, a1, b1]
    rcases eq_or_lt_of_le (by positivity : (0 : ℚ) ≤ swa + swb) with hz | hp
    · have hsa : swa = 0 := by linarith [le_antisymm (by linarith) a3]
      have hsb : swb = 0 := by linarith
      simp [hsa, hsb, a4 hsa, b4 hsb, ← a2, ← b2]
    · have hne : swa + swb ≠ 0 := ne_of_gt hp
      field_simp
      nlinarith [a2, b2]
  · intro hz
    have hsa : swa = 0 := by linarith [le_antisymm (by linarith) a3]
    have hsb : swb = 0 := by linarith
    simp [WeightedStats.merge, a1, b1, hsa, hsb, a4 hsa, b4 hsb]

theorem ReprMoments.mean_eq {s : WeightedStats} {sw sv : ℚ} (h : ReprMoments s sw sv) :
    s.mean = sv / sw := by
  obtain ⟨h1, h2, h3, h4⟩ := h
  rcases eq_or_ne sw 0 with hz | hne
  · have : sv = 0 := by rw [← h2, hz, mul_zero]
    simp [h4 hz, hz, this]
  · field_simp
    linarith [h2]

theorem wtot_append (la lb : List (ℚ × ℚ)) : wtot (la ++ lb) = wtot la + wtot lb := by
  simp [wtot]

theorem wsum_append (la lb : List (ℚ × ℚ)) : wsum (la ++ lb) = wsum la + wsum lb := by
  simp [wsum]

theorem mem_append_weights {la lb : List (ℚ × ℚ)}
    (hwa : ∀ u ∈ la, 0 ≤ u.2) (hwb : ∀ u ∈ lb, 0 ≤ u.2) :
    ∀ u ∈ la ++ lb, 0 ≤ u.2 := by
  intro u hu
  rcases List.mem_append.mp hu with h | h
  · exact hwa u h
  · exact hwb u h

/-- C7: for accumulators A and B built from two sequences of
(value, weight) updates, merging B into A yields an accumulator whose sum
of weights and mean equal those computed directly from the union
(concatenation) of the two update sequences — the same values one gets by
building a single accumulator from the union — and the resulting mean is
commutative and associative in the merge order.  WeightedStats.merge is,
by its definition above, a function of the two accumulators record fields
alone: no raw samples are retained or replayed. -/
theorem C7_merge_algebra (la lb lc : List (ℚ × ℚ))
    (hwa : ∀ u ∈ la, 0 ≤ u.2) (hwb : ∀ u ∈ lb, 0 ≤ u.2) (hwc : ∀ u ∈ lc, 0 ≤ u.2) :
    ((buildAcc la).merge (buildAcc lb)).sum_weights = wtot (la ++ lb)
  ∧ ((buildAcc la).merge (buildAcc lb)).mean = wsum (la ++ lb) / wtot (la ++ lb)
  ∧ ((buildAcc la).merge (buildAcc lb)).sum_weights = (buildAcc (la ++ lb)).sum_weights
  ∧ ((buildAcc la).merge (buildAcc lb)).mean = (buildAcc (la ++ lb)).mean
  ∧ ((buildAcc la).merge (buildAcc lb)).mean = ((buildAcc lb).merge (buildAcc la)).mean
  ∧ (((buildAcc la).merge (buildAcc lb)).merge (buildAcc lc)).mean
      = ((buildAcc la).merge ((buildAcc lb).merge (buildAcc lc))).mean := by
  have ha := buildAcc_moments la hwa
  have hb := buildAcc_moments lb hwb
  have hc := buildAcc_moments lc hwc
  have hab := merge_moments ha hb
  have hba := merge_moments hb ha
  have hu := buildAcc_moments (la ++ lb) (mem_append_weights hwa hwb)
  have habc := merge_moments hab hc
  have hbc := merge_moments hb hc
  have habc2 := merge_moments ha hbc
  refine ⟨?_, ?_, ?_, ?_, ?_, ?_⟩
  · rw [hab.1, wtot_append]
  · rw [hab.mean_eq, wtot_append, wsum_append]
  · rw [hab.1, hu.1, wtot_append]
  · rw [hab.mean_eq, hu.mean_eq, wtot_append, wsum_append]
  · rw [hab.mean_eq, hba.mean_eq, add_comm (wsum la), add_comm (wtot la)]
  · rw [habc.mean_eq, habc2.mean_eq, add_assoc, add_assoc]

theorem C7_merge_algebra_witness :
    ((buildAcc [(3, 2)]).merge (buildAcc [(5, 1), (7, 0)])).sum_weights
        = wtot ([(3, 2)] ++ [(5, 1), (7, 0)])
  ∧ ((buildAcc [(3, 2)]).merge (buildAcc [(5, 1), (7, 0)])).mean
        = wsum ([(3, 2)] ++ [(5, 1), (7, 0)]) / wtot ([(3, 2)] ++ [(5, 1), (7, 0)])
  ∧ ((buildAcc [(3, 2)]).merge (buildAcc [(5, 1), (7, 0)])).sum_weights
        = (buildAcc ([(3, 2)] ++ [(5, 1), (7, 0)])).sum_weights
  ∧ ((buildAcc [(3, 2)]).merge (buildAcc [(5, 1), (7, 0)])).mean
        = (buildAcc ([(3, 2)] ++ [(5, 1), (7, 0)])).mean
  ∧ ((buildAcc [(3, 2)]).merge (buildAcc [(5, 1), (7, 0)])).mean
        = ((buildAcc [(5, 1), (7, 0)]).merge (buildAcc [(3, 2)])).mean
  ∧ (((buildAcc [(3, 2)]).merge (buildAcc [(5, 1), (7, 0)])).merge (buildAcc [(2, 4)])).mean
      = ((buildAcc [(3, 2)]).merge ((buildAcc [(5, 1), (7, 0)]).merge (buildAcc [(2, 4)]))).mean :=
  C7_merge_algebra [(3, 2)] [(5, 1), (7, 0)] [(2, 4)]
    (by decide) (by decide) (by decide)

/-! ## WeightedArray (src/python/evocore/learning/weighted.py) -/

structure WeightedArray where
  stats : List WeightedStats
  deriving DecidableEq, Repr

/-- Number of parameters tracked; the binding stores param_count at
creation and the C array holds one WeightedStats per parameter. -/
def WeightedArray.count (a : WeightedArray) : Nat := a.stats.length

/-- Modelled from the spec: evocore_weighted_array_update (C, not under
src/) applies the per-parameter weighted update, each per-parameter
weight multiplied by the global multiplier. -/
def cWeightedArrayUpdate (a : WeightedArray) (values weights : List ℚ)
    (gw : ℚ) : Bool × WeightedArray :=
  (true, ⟨(a.stats.zip (values.zip weights)).map
      (fun p => (p.1.update p.2.1 (p.2.2 * gw)).2)⟩)

/-- WeightedArray.update from src/python/evocore/learning/weighted.py:
raises ValueError on a values-length mismatch and, when per-value weights
are supplied, on a weights-length mismatch, in both cases before the FFI
call (the second component of the result is the accumulator state after
the call, unchanged on the error paths); a missing weights argument
defaults to all ones. -/
def WeightedArray.update (a : WeightedArray) (values : List ℚ)
    (weights : Option (List ℚ)) (global_weight : ℚ) :
    Except PyErr Bool × WeightedArray :=
  if values.length ≠ a.count then (.error .valueError, a)
  else
    match weights with
    | none =>
        let r := cWeightedArrayUpdate a values (List.replicate a.count 1) global_weight
        (.ok r.1, r.2)
    | some ws =>
        if ws.length ≠ a.count then (.error .valueError, a)
        else
          let r := cWeightedArrayUpdate a values ws global_weight
          (.ok r.1, r.2)

/-! ## ContextSystem (src/python/evocore/learning/context.py)

The dimension definitions and param_count are fixed at construction; the
C system owns a key-to-ContextStats mapping, modelled as an association
list.  Each C entry point that is not under src/ is modelled from the
spec, section 4.3. -/

structure ContextStats where
  arr : List WeightedStats
  total_experiences : Nat
  best_fitness : ℚ
  avg_fitness : ℚ
  deriving DecidableEq, Repr

structure ContextSystem where
  dims : List (String × List String)
  param_count : Nat
  contexts : List (String × ContextStats)
  deriving DecidableEq, Repr

/-- A freshly constructed system: dimensions and param_count fixed, no
context has any data yet. -/
def ContextSystem.init (dims : List (String × List String)) (pc : Nat) : ContextSystem :=
  ⟨dims, pc, []⟩

def ContextSystem.context_count (sys : ContextSystem) : Nat := sys.contexts.length

/-- ContextSystem.validate_context from src: returns False on a length
mismatch, otherwise checks each value for membership in the declared
value list of the dimension at the same position.  Total: never raises. -/
def ContextSystem.validate_context (sys : ContextSystem) (context : List String) : Bool :=
  if context.length ≠ sys.dims.length then false
  else (sys.dims.zip context).all fun p => p.1.2.contains p.2

/-- Python str.join with separator ":" — the pure-Python fallback used in
ContextSystem.build_key. -/
def joinColon : List String → String
  | [] => ""
  | [a] => a
  | a :: rest => a ++ ":" ++ joinColon rest

/-- Modelled from the spec: evocore_context_build_key (C, not under src/)
performs a deterministic, order-preserving concatenation of the
per-dimension values with the reserved separator (a colon, matching the
binding fallback); the values must validate against each dimension
declared value set, and the call fails otherwise. -/
def cBuildKey (sys : ContextSystem) (context : List String) : Option String :=
  if sys.validate_context context then some (joinColon context) else none

/-- ContextSystem.build_key from src: raises ValueError when the context
length differs from the dimension count; otherwise calls the C key
builder and, if that call fails, falls back to the pure-Python
colon-join of the context values. -/
def ContextSystem.build_key (sys : ContextSystem) (context : List String) :
    Except PyErr String :=
  if context.length ≠ sys.dims.length then .error .valueError
  else
    match cBuildKey sys context with
    | some k => .ok k
    | none => .ok (joinColon context)

/-- Modelled from the spec: the monotonic fitness-to-weight mapping used
by context learning (the spec leaves the exact mapping to the
implementation, suggesting weight = max(fitness, epsilon)). -/
def fitnessWeight (fitness : ℚ) : ℚ := max fitness (1 / 1000)

/-- Modelled from the spec: updating the ContextStats of a key with one
experience — per-parameter weighted update with a fitness-derived weight,
plus best/avg fitness and the experience count. -/
def updateCtxStats (st : ContextStats) (params : List ℚ) (fitness : ℚ) : ContextStats :=
  { arr := (st.arr.zip params).map (fun p => (p.1.update p.2 (fitnessWeight fitness)).2)
    total_experiences := st.total_experiences + 1
    best_fitness := max st.best_fitness fitness
    avg_fitness := (st.avg_fitness * st.total_experiences + fitness)
        / (st.total_experiences + 1) }

/-- Modelled from the spec: evocore_context_learn (C, not under src/)
resolves or lazily creates the ContextStats for the key built from the
context and feeds the experience into it; fails (returns false, no
change) when the key cannot be built. -/
def cContextLearn (sys : ContextSystem) (context : List String)
    (params : List ℚ) (fitness : ℚ) : Bool × ContextSystem :=
  match cBuildKey sys context with
  | none => (false, sys)
  | some key =>
      match sys.contexts.lookup key with
      | some st =>
          (true, { sys with contexts :=
            sys.contexts.map (fun p => if p.1 = key then (key, updateCtxStats st params fitness) else p) })
      | none =>
          (true, { sys with contexts :=
            sys.contexts ++ [(key, updateCtxStats
              ⟨List.replicate sys.param_count WeightedStats.init, 0, fitness, 0⟩ params fitness)] })

/-- ContextSystem.learn from src: raises ValueError when the context
length differs from the dimension count, then raises ValueError when the
parameter vector length differs from param_count — both before the FFI
call (the second component is the system state after the call, unchanged
on the error paths). -/
def ContextSystem.learn (sys : ContextSystem) (context : List String)
    (parameters : List ℚ) (fitness : ℚ) : Except PyErr Bool × ContextSystem :=
  if context.length ≠ sys.dims.length then (.error .valueError, sys)
  else if parameters.length ≠ sys.param_count then (.error .valueError, sys)
  else
    let r := cContextLearn sys context parameters fitness
    (.ok r.1, r.2)

/-- Modelled from the spec: a deterministic unit-interval PRNG draw used
as the noise source of the C sampler — a pure function of the supplied
seed and the parameter index, standing in for the concrete generator. -/
def prngUnit (seed i : Nat) : ℚ :=
  (((seed * 7919 + i * 104729) % 1000 : Nat) : ℚ) / 1000 - 1 / 2

/-- Modelled from the spec: evocore_context_sample (C, not under src/)
blends, for a context with learned data, each parameter learned mean with
a variance-scaled offset proportional to the exploration factor,
deterministically in the supplied seed; it fails when the key cannot be
built or the context has no data. -/
def cContextSample (sys : ContextSystem) (context : List String)
    (exploration : ℚ) (seed : Nat) : Option (List ℚ) :=
  match cBuildKey sys context with
  | none => none
  | some key =>
      match sys.contexts.lookup key with
      | none => none
      | some st => some (st.arr.enum.map
          (fun p => p.2.mean + exploration * p.2.variance * prngUnit seed p.1))

/-- ContextSystem.sample from src: raises ValueError on a context-length
mismatch; otherwise calls the C sampler with the supplied seed (0 when
None) and, if that call fails, returns np.random.uniform(0, 1,
param_count) — a draw from the GLOBAL numpy generator (threaded here as
an explicit extra argument and returned advanced) that does not consult
the supplied seed. -/
def ContextSystem.sample (sys : ContextSystem) (context : List String)
    (exploration : ℚ) (seed : Option Nat) (npGlobal : Nat) :
    Except PyErr (List ℚ × Nat) :=
  if context.length ≠ sys.dims.length then .error .valueError
  else
    match cContextSample sys context exploration (seed.getD 0) with
    | some v => .ok (v, npGlobal)
    | none => .ok (npUniform01 npGlobal sys.param_count)

theorem validate_context_length {sys : ContextSystem} {context : List String}
    (h : sys.validate_context context = true) : context.length = sys.dims.length := by
  by_contra hne
  simp [ContextSystem.validate_context, hne] at h

/-- C6: ContextSystem.validate_context returns True exactly when the
context has one value per declared dimension (equal lengths) and each
value belongs to the declared value list of the dimension at the same
position; in every other case it returns False.  The function is total
(a Bool-valued Lean function), so it never raises. -/
theorem C6_validate_context_iff (sys : ContextSystem) (context : List String) :
    sys.validate_context context = true ↔
      (context.length = sys.dims.length ∧
        ∀ (i : Nat) (h1 : i < sys.dims.length) (h2 : i < context.length),
          context.get ⟨i, h2⟩ ∈ (sys.dims.get ⟨i, h1⟩).2) := by
  by_cases h : context.length = sys.dims.length
  · have hcond : ¬ context.length ≠ sys.dims.length := by simpa using h
    simp only [ContextSystem.validate_context, hcond, if_false, List.all_eq_true]
    constructor
    · intro hall
      refine ⟨h, fun i h1 h2 => ?_⟩
      have hz : i < (sys.dims.zip context).length := by
        rw [List.length_zip]
        omega
      have hmem := hall _ (List.get_mem (sys.dims.zip context) i hz)
      rw [List.get_zip] at hmem
      simpa using hmem
    · rintro ⟨-, hforall⟩ p hp
      rw [List.mem_iff_get] at hp
      obtain ⟨⟨i, hi⟩, rfl⟩ := hp
      rw [List.get_zip]
      have h1 : i < sys.dims.length := List.lt_length_left_of_zip hi
      have h2 : i < context.length := List.lt_length_right_of_zip hi
      simpa using hforall i h1 h2
  · simp only [ContextSystem.validate_context, if_pos h]
    exact iff_of_false (by simp) (fun hc => h hc.1)

theorem C6_validate_context_iff_witness :
    (ContextSystem.init [("asset", ["BTC", "ETH"])] 2).validate_context ["ETH"] = true :=
  (C6_validate_context_iff (ContextSystem.init [("asset", ["BTC", "ETH"])] 2) ["ETH"]).mpr
    ⟨by decide, by
      intro i h1 h2
      have hb : i < 1 := h1
      have hz : i = 0 := by omega
      subst hz
      show ("ETH" : String) ∈ ["BTC", "ETH"]
      simp⟩

/-- C4: ContextSystem.learn raises ValueError whenever the context length
differs from the dimension count or the parameter length differs from
param_count, with the system state unchanged (so no ContextStats is
created and context_count is unchanged); WeightedArray.update likewise
raises ValueError on a values-length or weights-length mismatch with the
accumulator unchanged. -/
theorem C4_validate_before_mutation :
    (∀ (sys : ContextSystem) (context : List String) (parameters : List ℚ) (fitness : ℚ),
        context.length ≠ sys.dims.length ∨ parameters.length ≠ sys.param_count →
          sys.learn context parameters fitness = (.error .valueError, sys) ∧
          (sys.learn context parameters fitness).2.context_count = sys.context_count)
  ∧ (∀ (a : WeightedArray) (values ws : List ℚ) (gw : ℚ),
        values.length ≠ a.count ∨ ws.length ≠ a.count →
          a.update values (some ws) gw = (.error .valueError, a))
  ∧ (∀ (a : WeightedArray) (values : List ℚ) (gw : ℚ),
        values.length ≠ a.count →
          a.update values none gw = (.error .valueError, a)) := by
  refine ⟨?_, ?_, ?_⟩
  · intro sys context parameters fitness hmis
    have he : sys.learn context parameters fitness = (.error .valueError, sys) := by
      rcases hmis with h | h
      · simp [ContextSystem.learn, h]
      · by_cases hc : context.length = sys.dims.length
        · simp [ContextSystem.learn, hc, h]
        · simp [ContextSystem.learn, hc]
    exact ⟨he, by rw [he]⟩
  · intro a values ws gw hmis
    rcases hmis with h | h
    · simp [WeightedArray.update, h]
    · by_cases hv : values.length = a.count
      · simp [WeightedArray.update, hv, h]
      · simp [WeightedArray.update, hv]
  · intro a values gw h
    simp [WeightedArray.update, h]

theorem C4_validate_before_mutation_witness :
    ((ContextSystem.init [("asset", ["BTC"])] 2).learn ["BTC", "1h"] [0, 1] 1
        = (.error .valueError, ContextSystem.init [("asset", ["BTC"])] 2))
  ∧ (WeightedArray.update ⟨[WeightedStats.init]⟩ [1] (some [1, 2]) 1
        = (.error .valueError, ⟨[WeightedStats.init]⟩))
  ∧ (WeightedArray.update ⟨[WeightedStats.init]⟩ [1, 2] none 1
        = (.error .valueError, ⟨[WeightedStats.init]⟩)) :=
  ⟨(C4_validate_before_mutation.1 (ContextSystem.init [("asset", ["BTC"])] 2)
      ["BTC", "1h"] [0, 1] 1 (Or.inl (by decide))).1,
   C4_validate_before_mutation.2.1 ⟨[WeightedStats.init]⟩ [1] [1, 2] 1 (Or.inr (by decide)),
   C4_validate_before_mutation.2.2 ⟨[WeightedStats.init]⟩ [1, 2] 1 (by decide)⟩

/-- Concrete system for the C1 refutation: one dimension, one parameter,
no learn call has occurred. -/
def exC1 : ContextSystem := ContextSystem.init [("asset", ["BTC"])] 1

/-- C1 (refutation at a concrete input): on the path taken when the
context has no learned data, ContextSystem.sample returns
np.random.uniform(0, 1, param_count), a draw from the GLOBAL numpy
generator.  Two calls with identical arguments (including the seed 42)
on the identical no-data system state return different parameter vectors
as soon as the ambient numpy generator state differs — and it advances
with every draw — so the result is not determined by the supplied seed. -/
theorem C1_sample_no_data_ignores_seed :
    exC1.sample ["BTC"] (1 / 2) (some 42) 0 = .ok (npUniform01 0 1) ∧
    exC1.sample ["BTC"] (1 / 2) (some 42) 1 = .ok (npUniform01 1 1) ∧
    (npUniform01 0 1).1 ≠ (npUniform01 1 1).1 :=
  ⟨rfl, rfl, by norm_num [npUniform01, List.range_succ, List.range_zero]⟩

/-- C3: for every valid context on which no learn call has occurred —
its key has no ContextStats entry, whether or not the system has
learned other contexts — sample never raises: it returns the numpy
uniform draw, a vector of length param_count with every entry in the
half-open interval [0,1). -/
theorem C3_sample_no_data_uniform (sys : ContextSystem)
    (context : List String) (exploration : ℚ) (seed : Option Nat) (g : Nat)
    (hv : sys.validate_context context = true)
    (hnd : sys.contexts.lookup (joinColon context) = none) :
    sys.sample context exploration seed g = .ok (npUniform01 g sys.param_count)
  ∧ (npUniform01 g sys.param_count).1.length = sys.param_count
  ∧ (∀ x ∈ (npUniform01 g sys.param_count).1, 0 ≤ x ∧ x < 1) := by
  have hlen : context.length = sys.dims.length := validate_context_length hv
  refine ⟨?_, npUniform01_length g sys.param_count, npUniform01_mem_Ico g sys.param_count⟩
  have hcs : cContextSample sys context exploration (seed.getD 0) = none := by
    simp [cContextSample, cBuildKey, hv, hnd]
  simp [ContextSystem.sample, hlen, hcs]

/-- Concrete system for the C3 witness: one learn call has occurred for
the context ["ETH"], none for ["BTC"]. -/
def exC3 : ContextSystem :=
  ((ContextSystem.init [("asset", ["BTC", "ETH"])] 2).learn ["ETH"] [1, 2] 1).2

theorem C3_sample_no_data_uniform_witness :
    exC3.sample ["BTC"] (1 / 2) (some 7) 5 = .ok (npUniform01 5 exC3.param_count)
  ∧ (npUniform01 5 exC3.param_count).1.length = exC3.param_count
  ∧ (∀ x ∈ (npUniform01 5 exC3.param_count).1, 0 ≤ x ∧ x < 1) :=
  C3_sample_no_data_uniform exC3 ["BTC"] (1 / 2) (some 7) 5 (by decide) (by decide)

theorem intercalate_cons_cons (s a b : List α) (t : List (List α)) :
    List.intercalate s (a :: b :: t) = a ++ s ++ List.intercalate s (b :: t) := by
  simp [List.intercalate, List.append_assoc]

theorem joinColon_data : ∀ l : List String,
    (joinColon l).data = List.intercalate [':'] (l.map String.data)
  | [] => by simp [joinColon, List.intercalate]
  | [a] => by simp [joinColon, List.intercalate]
  | a :: b :: rest => by
      have ih := joinColon_data (b :: rest)
      show ((a ++ ":") ++ joinColon (b :: rest)).data = _
      simp only [String.data_append, ih, List.map_cons, intercalate_cons_cons]

theorem joinColon_inj {l1 l2 : List String}
    (h1 : ∀ s ∈ l1, ':' ∉ s.data) (h2 : ∀ s ∈ l2, ':' ∉ s.data)
    (hlen : l1.length = l2.length) (h : joinColon l1 = joinColon l2) : l1 = l2 := by
  rcases l1 with _ | ⟨a, t1⟩
  · rcases l2 with _ | ⟨b, t2⟩
    · rfl
    · simp at hlen
  · rcases l2 with _ | ⟨b, t2⟩
    · simp at hlen
    · have hd : (joinColon (a :: t1)).data = (joinColon (b :: t2)).data := by rw [h]
      rw [joinColon_data, joinColon_data] at hd
      have hs1 : (List.intercalate [':'] ((a :: t1).map String.data)).splitOn ':'
          = (a :: t1).map String.data :=
        List.splitOn_intercalate ((a :: t1).map String.data) ':'
          (fun m hm => by
            obtain ⟨s, hs, rfl⟩ := List.mem_map.mp hm
            exact h1 s hs)
          (by simp)
      have hs2 : (List.intercalate [':'] ((b :: t2).map String.data)).splitOn ':'
          = (b :: t2).map String.data :=
        List.splitOn_intercalate ((b :: t2).map String.data) ':'
          (fun m hm => by
            obtain ⟨s, hs, rfl⟩ := List.mem_map.mp hm
            exact h2 s hs)
          (by simp)
      have hmap : (a :: t1).map String.data = (b :: t2).map String.data := by
        rw [← hs1, ← hs2, hd]
      have hinj : Function.Injective String.data := fun s t hst => by
        cases s
        cases t
        exact congrArg String.mk hst
      exact List.map_injective_iff.mpr hinj hmap

/-- Concrete system for the C2 refutation: one dimension whose declared
set is ["BTC"]. -/
def exC2 : ContextSystem := ContextSystem.init [("asset", ["BTC"])] 1

/-- Concrete system for the C2 injectivity refutation: declared values
that contain the separator character. -/
def exC2b : ContextSystem :=
  ContextSystem.init [("a", ["x:y", "x"]), ("b", ["z", "y:z"])] 1

/-- C2 (refutation at concrete inputs).  First conjunct: a tuple of the
correct length containing a value outside its dimension declared value
set does not fail — the binding falls back to the pure-Python
colon-join and returns a key (context.py lines 326-328), contradicting
the claim that build_key fails rather than returning a key for such
tuples.  Second conjunct: injectivity over valid, distinct tuples also
fails as soon as declared values contain the separator character — the
two valid, distinct tuples ["x:y", "z"] and ["x", "y:z"] both yield the
key "x:y:z". -/
theorem C2_invalid_value_returns_key :
    (exC2.validate_context ["XRP"] = false ∧ exC2.build_key ["XRP"] = .ok "XRP")
  ∧ (exC2b.validate_context ["x:y", "z"] = true
    ∧ exC2b.validate_context ["x", "y:z"] = true
    ∧ (["x:y", "z"] : List String) ≠ ["x", "y:z"]
    ∧ exC2b.build_key ["x:y", "z"] = exC2b.build_key ["x", "y:z"]
    ∧ exC2b.build_key ["x:y", "z"] = .ok "x:y:z") :=
  ⟨⟨by decide, rfl⟩, by decide, by decide, by decide, rfl, rfl⟩

/-- C2 (amended): build_key raises ValueError exactly on a
context-length mismatch; every length-matching tuple — valid or not —
yields the colon-joined key (invalid values go through the fallback
rather than failing); and build_key is injective over valid, distinct
tuples whose values do not contain the reserved separator character. -/
theorem C2_build_key_amended :
    (∀ (sys : ContextSystem) (c1 c2 : List String),
        sys.validate_context c1 = true → sys.validate_context c2 = true →
        (∀ s ∈ c1, ':' ∉ s.data) → (∀ s ∈ c2, ':' ∉ s.data) →
        sys.build_key c1 = sys.build_key c2 → c1 = c2)
  ∧ (∀ (sys : ContextSystem) (context : List String),
        context.length ≠ sys.dims.length →
        sys.build_key context = .error .valueError)
  ∧ (∀ (sys : ContextSystem) (context : List String),
        context.length = sys.dims.length →
        sys.build_key context = .ok (joinColon context)) := by
  have hok : ∀ (sys : ContextSystem) (context : List String),
      context.length = sys.dims.length →
      sys.build_key context = .ok (joinColon context) := by
    intro sys context hlen
    by_cases hv : sys.validate_context context = true
    · simp [ContextSystem.build_key, cBuildKey, hlen, hv]
    · simp [ContextSystem.build_key, cBuildKey, hlen, hv]
  refine ⟨?_, ?_, hok⟩
  · intro sys c1 c2 hv1 hv2 hc1 hc2 heq
    have hl1 := validate_context_length hv1
    have hl2 := validate_context_length hv2
    rw [hok sys c1 hl1, hok sys c2 hl2] at heq
    exact joinColon_inj hc1 hc2 (hl1.trans hl2.symm) (Except.ok.inj heq)
  · intro sys context h
    simp [ContextSystem.build_key, h]

theorem C2_build_key_amended_witness :
    (["BTC"] : List String) = ["BTC"]
  ∧ exC2.build_key ["BTC", "1h"] = .error .valueError
  ∧ exC2.build_key ["XRP"] = .ok (joinColon ["XRP"]) :=
  ⟨C2_build_key_amended.1 exC2 ["BTC"] ["BTC"] (by decide) (by decide)
      (by decide) (by decide) rfl,
   C2_build_key_amended.2.1 exC2 ["BTC", "1h"] (by decide),
   C2_build_key_amended.2.2 exC2 ["XRP"] (by decide)⟩

/-! ## MetaParams (src/python/evocore/meta/params.py)

The class stores its ~24 numeric fields and one boolean flag in a C
struct; every property getter/setter in src reads/writes one struct
field directly.  Doubles and C integer fields are modelled as exact
rationals, the boolean flag as Bool.  A raised Python exception is
modelled as an error value. -/

/-- Python values stored in a parameter dictionary. -/
inductive PyVal where
  | num (q : ℚ)
  | flag (b : Bool)
  deriving DecidableEq, Repr

structure MetaParams where
  optimization_mutation_rate : ℚ
  variance_mutation_rate : ℚ
  experimentation_rate : ℚ
  elite_protection_ratio : ℚ
  culling_ratio : ℚ
  fitness_threshold_for_breeding : ℚ
  target_population_size : ℚ
  min_population_size : ℚ
  max_population_size : ℚ
  learning_rate : ℚ
  exploration_factor : ℚ
  confidence_threshold : ℚ
  profitable_optimization_ratio : ℚ
  profitable_random_ratio : ℚ
  losing_optimization_ratio : ℚ
  losing_random_ratio : ℚ
  meta_mutation_rate : ℚ
  meta_learning_rate : ℚ
  meta_convergence_threshold : ℚ
  negative_learning_enabled : Bool
  negative_penalty_weight : ℚ
  negative_decay_rate : ℚ
  negative_capacity : ℚ
  negative_similarity_threshold : ℚ
  negative_forbidden_threshold : ℚ

/-- Modelled from the spec: evocore_meta_params_init (C, not under src/)
fills in default values.  The concrete defaults are not observable by
any claim proved here (the round trip overwrites every field), so they
are all taken to be zero/false. -/
def metaDefault : MetaParams :=
  ⟨0, 0, 0, 0, 0, 0, 0, 0, 0, 0, 0, 0, 0, 0, 0, 0, 0, 0, 0, false, 0, 0, 0, 0, 0⟩

/-- MetaParams.PARAM_NAMES from src: the names supported by get/set. -/
def PARAM_NAMES : List String :=
  ["optimization_mutation_rate", "variance_mutation_rate", "experimentation_rate",
   "elite_protection_ratio", "culling_ratio", "fitness_threshold_for_breeding",
   "target_population_size", "min_population_size", "max_population_size",
   "learning_rate", "exploration_factor", "confidence_threshold",
   "profitable_optimization_ratio", "profitable_random_ratio",
   "losing_optimization_ratio", "losing_random_ratio", "meta_mutation_rate",
   "meta_learning_rate", "meta_convergence_threshold", "negative_penalty_weight",
   "negative_decay_rate", "negative_capacity", "negative_similarity_threshold",
   "negative_forbidden_threshold"]

/-- The settable Python properties of MetaParams (each one in src has a
property setter writing through to the C struct). -/
def propertyNames : List String :=
  ["optimization_mutation_rate", "variance_mutation_rate", "experimentation_rate",
   "elite_protection_ratio", "culling_ratio", "fitness_threshold_for_breeding",
   "target_population_size", "min_population_size", "max_population_size",
   "learning_rate", "exploration_factor", "confidence_threshold",
   "profitable_optimization_ratio", "profitable_random_ratio",
   "losing_optimization_ratio", "losing_random_ratio", "meta_mutation_rate",
   "meta_learning_rate", "meta_convergence_threshold", "negative_learning_enabled",
   "negative_penalty_weight", "negative_decay_rate", "negative_capacity",
   "negative_similarity_threshold", "negative_forbidden_threshold"]

/-- The public non-property class attributes of MetaParams: hasattr is
true for these, but setattr on an instance raises AttributeError because
the class declares __slots__ and these are not data descriptors. -/
def classAttrNames : List String :=
  ["PARAM_NAMES", "validate", "mutate", "clone", "get", "set", "print",
   "to_dict", "from_dict"]

/-- Python setattr through the property setters: writes the named field
when the name is a settable property and the value has the field type;
none models a raised exception (unknown attribute or a value the C
struct field rejects). -/
def setattrMeta (p : MetaParams) (name : String) (v : PyVal) : Option MetaParams :=
  match name, v with
  | "optimization_mutation_rate", .num q => some { p with optimization_mutation_rate := q }
  | "variance_mutation_rate", .num q => some { p with variance_mutation_rate := q }
  | "experimentation_rate", .num q => some { p with experimentation_rate := q }
  | "elite_protection_ratio", .num q => some { p with elite_protection_ratio := q }
  | "culling_ratio", .num q => some { p with culling_ratio := q }
  | "fitness_threshold_for_breeding", .num q => some { p with fitness_threshold_for_breeding := q }
  | "target_population_size", .num q => some { p with target_population_size := q }
  | "min_population_size", .num q => some { p with min_population_size := q }
  | "max_population_size", .num q => some { p with max_population_size := q }
  | "learning_rate", .num q => some { p with learning_rate := q }
  | "exploration_factor", .num q => some { p with exploration_factor := q }
  | "confidence_threshold", .num q => some { p with confidence_threshold := q }
  | "profitable_optimization_ratio", .num q => some { p with profitable_optimization_ratio := q }
  | "profitable_random_ratio", .num q => some { p with profitable_random_ratio := q }
  | "losing_optimization_ratio", .num q => some { p with losing_optimization_ratio := q }
  | "losing_random_ratio", .num q => some { p with losing_random_ratio := q }
  | "meta_mutation_rate", .num q => some { p with meta_mutation_rate := q }
  | "meta_learning_rate", .num q => some { p with meta_learning_rate := q }
  | "meta_convergence_threshold", .num q => some { p with meta_convergence_threshold := q }
  | "negative_learning_enabled", .flag b => some { p with negative_learning_enabled := b }
  | "negative_penalty_weight", .num q => some { p with negative_penalty_weight := q }
  | "negative_decay_rate", .num q => some { p with negative_decay_rate := q }
  | "negative_capacity", .num q => some { p with negative_capacity := q }
  | "negative_similarity_threshold", .num q => some { p with negative_similarity_threshold := q }
  | "negative_forbidden_threshold", .num q => some { p with negative_forbidden_threshold := q }
  | _, _ => none

/-- MetaParams.to_dict from src: the dictionary of parameter names to
current values, in source order (insertion order is iteration order for
a Python dict). -/
def MetaParams.to_dict (p : MetaParams) : List (String × PyVal) :=
  [("optimization_mutation_rate", .num p.optimization_mutation_rate),
   ("variance_mutation_rate", .num p.variance_mutation_rate),
   ("experimentation_rate", .num p.experimentation_rate),
   ("elite_protection_ratio", .num p.elite_protection_ratio),
   ("culling_ratio", .num p.culling_ratio),
   ("fitness_threshold_for_breeding", .num p.fitness_threshold_for_breeding),
   ("target_population_size", .num p.target_population_size),
   ("min_population_size", .num p.min_population_size),
   ("max_population_size", .num p.max_population_size),
   ("learning_rate", .num p.learning_rate),
   ("exploration_factor", .num p.exploration_factor),
   ("confidence_threshold", .num p.confidence_threshold),
   ("profitable_optimization_ratio", .num p.profitable_optimization_ratio),
   ("profitable_random_ratio", .num p.profitable_random_ratio),
   ("losing_optimization_ratio", .num p.losing_optimization_ratio),
   ("losing_random_ratio", .num p.losing_random_ratio),
   ("meta_mutation_rate", .num p.meta_mutation_rate),
   ("meta_learning_rate", .num p.meta_learning_rate),
   ("meta_convergence_threshold", .num p.meta_convergence_threshold),
   ("negative_learning_enabled", .flag p.negative_learning_enabled),
   ("negative_penalty_weight", .num p.negative_penalty_weight),
   ("negative_decay_rate", .num p.negative_decay_rate),
   ("negative_capacity", .num p.negative_capacity),
   ("negative_similarity_threshold", .num p.negative_similarity_threshold),
   ("negative_forbidden_threshold", .num p.negative_forbidden_threshold)]

/-- One iteration of the from_dict loop in src: if hasattr(params, name)
then setattr(params, name, value) — a settable property is written (a
value of the wrong type raises), a non-property class attribute makes
setattr raise under __slots__, and any other name is silently skipped. -/
def fromDictStep (p : MetaParams) (item : String × PyVal) : Except PyErr MetaParams :=
  if propertyNames.contains item.1 then
    match setattrMeta p item.1 item.2 with
    | some p2 => .ok p2
    | none => .error .attributeError
  else if classAttrNames.contains item.1 then .error .attributeError
  else .ok p

/-- MetaParams.from_dict from src: starts from a default-initialized
MetaParams and folds the dictionary items through the hasattr/setattr
loop. -/
def MetaParams.from_dict (d : List (String × PyVal)) : Except PyErr MetaParams :=
  d.foldlM fromDictStep metaDefault

/-- Modelled from the spec: evocore_meta_params_set (C, not under src/)
writes the named numeric field and returns an error status for an
unknown name (spec: "Field access by name must be total (unknown name ⇒
error)"); the binding then calls check_error, which raises EvocoreError
on a nonzero status.  The supported names are exactly the PARAM_NAMES
list from src. -/
def MetaParams.set (p : MetaParams) (name : String) (value : ℚ) : Except PyErr MetaParams :=
  if PARAM_NAMES.contains name then
    match setattrMeta p name (.num value) with
    | some p2 => .ok p2
    | none => .error .evocoreError
  else .error .evocoreError

/-- C9: to_dict followed by from_dict is a round trip — the resulting
MetaParams equals the original on every field enumerated by to_dict
(which is every field, so the records are equal). -/
theorem C9_meta_params_roundtrip (p : MetaParams) :
    MetaParams.from_dict (MetaParams.to_dict p) = .ok p := by
  cases p
  rfl

/-- C5 (refutation at a concrete input): from_dict applied to a
dictionary containing the unknown key "foo" reports no error — the key
is silently ignored (the hasattr guard in params.py lines 183-185 skips
it), contradicting the claim that an unknown key is reported as an
error. -/
theorem C5_from_dict_ignores_unknown_key :
    MetaParams.from_dict [("foo", PyVal.num 1)] = .ok metaDefault := rfl

/-- C5 (amended): MetaParams.set raises an error for every unknown field
name, but MetaParams.from_dict silently skips any dictionary key that is
not an attribute of MetaParams — the fold continues unchanged with the
remaining items instead of reporting an error. -/
theorem C5_name_access_amended :
    (∀ (p : MetaParams) (name : String) (v : ℚ),
        PARAM_NAMES.contains name = false →
        MetaParams.set p name v = .error .evocoreError)
  ∧ (∀ (p : MetaParams) (name : String) (v : PyVal) (rest : List (String × PyVal)),
        propertyNames.contains name = false →
        classAttrNames.contains name = false →
        List.foldlM fromDictStep p ((name, v) :: rest)
          = List.foldlM fromDictStep p rest) := by
  constructor
  · intro p name v h
    simp only [List.contains, List.elem_eq_mem, decide_eq_false_iff_not] at h
    simp [MetaParams.set, h]
  · intro p name v rest h1 h2
    simp only [List.contains, List.elem_eq_mem, decide_eq_false_iff_not] at h1 h2
    rw [List.foldlM_cons]
    have hstep : fromDictStep p (name, v) = .ok p := by
      simp [fromDictStep, h1, h2]
    rw [hstep]
    rfl

theorem C5_name_access_amended_witness :
    MetaParams.set metaDefault "foo" 1 = .error .evocoreError
  ∧ List.foldlM fromDictStep metaDefault [("foo", PyVal.num 1)]
      = List.foldlM fromDictStep metaDefault [] :=
  ⟨C5_name_access_amended.1 metaDefault "foo" 1 (by decide),
   C5_name_access_amended.2 metaDefault "foo" (PyVal.num 1) [] (by decide) (by decide)⟩

/-! ## ProgressReporter (src/python/evocore/utils/stats.py)

The reporter is pure Python: it stores the callback, the cadence
every_n and the last reported generation (initially -1); report invokes
the callback exactly when the generation read from the Stats snapshot is
at least every_n beyond the last reported one, and then records that
generation.  The callback is observational, so the embedding records
whether it fired. -/

structure ProgressReporter where
  every_n : Int
  last_reported : Int

/-- ProgressReporter.__init__ from src: last_reported starts at -1. -/
def ProgressReporter.create (every_n : Int) : ProgressReporter := ⟨every_n, -1⟩

/-- ProgressReporter.report from src: if gen - last_reported ≥ every_n,
the callback fires and last_reported becomes gen; otherwise nothing
happens. -/
def ProgressReporter.report (r : ProgressReporter) (gen : Int) : Bool × ProgressReporter :=
  if r.every_n ≤ gen - r.last_reported then (true, ⟨r.every_n, gen⟩) else (false, r)

/-- Generations at which the callback fires when report is called
successively with the generations of the given list. -/
def reportedGens (r : ProgressReporter) : List Int → List Int
  | [] => []
  | g :: rest =>
      let s := r.report g
      if s.1 then g :: reportedGens s.2 rest else reportedGens s.2 rest

theorem reportedGens_chain (gens : List Int) :
    ∀ r : ProgressReporter,
      List.Chain (fun a b => r.every_n ≤ b - a) r.last_reported (reportedGens r gens) := by
  induction gens with
  | nil => intro r; exact List.Chain.nil
  | cons g rest ih =>
      intro r
      by_cases h : r.every_n ≤ g - r.last_reported
      · simp only [reportedGens, ProgressReporter.report, h, if_true]
        exact List.Chain.cons h (ih ⟨r.every_n, g⟩)
      · simp only [reportedGens, ProgressReporter.report, h, if_false]
        exact ih r

/-- C8: report invokes its callback exactly when the snapshot generation
minus the last reported generation is at least every_n; the last
reported generation is -1 before any report; an invocation records the
snapshot generation as last reported; and along any sequence of report
calls, consecutive fired generations are at least every_n apart. -/
theorem C8_reporter_cadence :
    (∀ (r : ProgressReporter) (gen : Int),
        ((r.report gen).1 = true ↔ r.every_n ≤ gen - r.last_reported))
  ∧ (∀ (r : ProgressReporter) (gen : Int),
        (r.report gen).1 = true → (r.report gen).2.last_reported = gen)
  ∧ (∀ n : Int, (ProgressReporter.create n).last_reported = -1)
  ∧ (∀ (n : Int) (gens : List Int),
        (reportedGens (ProgressReporter.create n) gens).Chain' (fun a b => n ≤ b - a)) := by
  refine ⟨?_, ?_, fun n => rfl, ?_⟩
  · intro r gen
    by_cases h : r.every_n ≤ gen - r.last_reported
    · simp [ProgressReporter.report, h]
    · simp [ProgressReporter.report, h]
  · intro r gen hf
    by_cases h : r.every_n ≤ gen - r.last_reported
    · simp [ProgressReporter.report, h]
    · simp [ProgressReporter.report, h] at hf
  · intro n gens
    have hch := reportedGens_chain gens (ProgressReporter.create n)
    have hcc : List.Chain' (fun a b => n ≤ b - a)
        ((-1 : Int) :: reportedGens (ProgressReporter.create n) gens) := hch
    simpa using hcc.tail

theorem C8_reporter_cadence_witness :
    (((ProgressReporter.create 2).report 0).1 = true ↔
        (2 : Int) ≤ 0 - (ProgressReporter.create 2).last_reported)
  ∧ (((ProgressReporter.create 2).report 5).2.last_reported = 5)
  ∧ ((ProgressReporter.create 2).last_reported = -1)
  ∧ (reportedGens (ProgressReporter.create 2) [0, 1, 2, 3, 4]).Chain'
      (fun a b => (2 : Int) ≤ b - a) :=
  ⟨C8_reporter_cadence.1 (ProgressReporter.create 2) 0,
   C8_reporter_cadence.2.1 (ProgressReporter.create 2) 5 (by decide),
   C8_reporter_cadence.2.2.1 2,
   C8_reporter_cadence.2.2.2 2 [0, 1, 2, 3, 4]⟩

/-! ## ConfigEntry (src/python/evocore/utils/config.py) -/

inductive ConfigType where
  | string
  | int
  | double
  | bool
  deriving DecidableEq, Repr

structure ConfigEntry where
  key : String
  value : String
  type : ConfigType

/-- Python str.lower, modelled character-wise (ASCII case folding; the
config values at issue are ASCII).  Total, like the Python method. -/
def strLower (s : String) : String := ⟨s.data.map Char.toLower⟩

/-- ConfigEntry.as_bool from src: the stored string value, lowercased,
tested for membership in the four truthy literals.  Total: never
raises. -/
def ConfigEntry.as_bool (e : ConfigEntry) : Bool :=
  ["true", "1", "yes", "on"].contains (strLower e.value)

/-- C10: as_bool returns True iff the lowercased stored value is one of
"true", "1", "yes" or "on"; every other value yields False, in
particular the empty string (same key and type, empty value); the
function is total, so the call never raises. -/
theorem C10_as_bool_iff (e : ConfigEntry) :
    (e.as_bool = true ↔
      (strLower e.value = "true" ∨ strLower e.value = "1" ∨
       strLower e.value = "yes" ∨ strLower e.value = "on"))
  ∧ ((⟨e.key, "", e.type⟩ : ConfigEntry).as_bool = false) := by
  constructor
  · simp [ConfigEntry.as_bool, List.contains, List.elem_eq_mem]
  · rfl

theorem C10_as_bool_iff_witness :
    ((⟨"flag", "TRUE", ConfigType.bool⟩ : ConfigEntry).as_bool = true ↔
      (strLower (⟨"flag", "TRUE", ConfigType.bool⟩ : ConfigEntry).value = "true" ∨
       strLower (⟨"flag", "TRUE", ConfigType.bool⟩ : ConfigEntry).value = "1" ∨
       strLower (⟨"flag", "TRUE", ConfigType.bool⟩ : ConfigEntry).value = "yes" ∨
       strLower (⟨"flag", "TRUE", ConfigType.bool⟩ : ConfigEntry).value = "on"))
  ∧ ((⟨"flag", "", ConfigType.bool⟩ : ConfigEntry).as_bool = false) :=
  C10_as_bool_iff ⟨"flag", "TRUE", ConfigType.bool⟩

end Evocore
